import Mathlib

/-!
Verification of scripts/enhance.py (ChainNet WordNet enhancer).

Shallow embedding: the pure data flow of the script is translated into Lean
definitions; file and database I/O is modelled by the data it exchanges
(the list of file paths opened, the sense-key map as a function, the editor
add-relation call as a boolean oracle over the history of successful adds).
-/

namespace Enhance

/-- Source constant DEFAULT_WORDNET = 'omw-en:1.4'. -/
def DEFAULT_WORDNET : String := "omw-en:1.4"

/-- Source constant DEFAULT_CHAINNET = Path(__file__).parent.parent / "data" /
"chainnet_simple"; modelled relative to the repository root. -/
def DEFAULT_CHAINNET : String := "data/chainnet_simple"

/-- Source constant DEFAULT_OUTPUT, an f-string over DEFAULT_WORDNET computed
once at module load. -/
def DEFAULT_OUTPUT : String := DEFAULT_WORDNET ++ "_cn.xml"

/-- Source constant tropes. -/
def tropes : List String := ["metaphor", "metonymy"]

/-- Source dict reverses, as a lookup returning none on a missing key
(in Python a missing key raises KeyError at the call site). -/
def reverses (rel_type : String) : Option String :=
  if rel_type = "metaphor" then some "has_metaphor"
  else if rel_type = "metonym" then some "has_metonym"
  else none

/-- The file paths opened by load_chainnet_tropes given its path argument.
In the source the loop body rebinds the parameter:
path = DEFAULT_CHAINNET / "chainnet_{trope}.json", so the argument is
never consulted. -/
def load_chainnet_tropes_files (path : String) : List String :=
  tropes.map (fun trope => DEFAULT_CHAINNET ++ "/chainnet_" ++ trope ++ ".json")

/-- One sense as consumed by get_map: its metadata identifier and its id. -/
structure Sense where
  identifier : String
  id : String
deriving DecidableEq, Repr

/-- get_map from the source. It builds skey only when lex_spec is exactly
'omw-en:1.4'; the else branch is a bare string expression (no print, no
raise, no exit), so for any other specifier the empty map is returned and
the run continues. The result is wrapped in Except to make an aborting
outcome statable; the source never takes the error path. -/
def get_map (lex_spec : String) (senses : List Sense) :
    Except String (List (String × String)) :=
  if lex_spec = DEFAULT_WORDNET then
    Except.ok (senses.map (fun s => (s.identifier, s.id)))
  else
    Except.ok []

/-- One record of a category file: fields wordform, from_sense, to_sense. -/
structure Entry where
  wordform : String
  from_sense : String
  to_sense : String
deriving DecidableEq, Repr

/-- One relation tuple (relation_type, word, source_sense_key,
target_sense_key) as produced by extract_relations. -/
structure Rel where
  rel_type : String
  word : String
  source_key : String
  target_key : String
deriving DecidableEq, Repr

/-- extract_relations from the source: chainnet_data is modelled as the
ordered association list of (trope, content list); for each record one
tuple is appended, with rel = 'metonym' if trope == 'metonymy' else
'metaphor'. -/
def extract_relations (chainnet_data : List (String × List Entry)) : List Rel :=
  chainnet_data.foldr
    (fun tc acc =>
      tc.2.map (fun e =>
        Rel.mk (if tc.1 = "metonymy" then "metonym" else "metaphor")
          e.wordform e.from_sense e.to_sense) ++ acc)
    []

/-- The WordnetEditor constructor arguments used by enhance_wordnet. -/
structure EditorInit where
  lexicon : String
  version : String
  label : String
  lmf_version : String
deriving DecidableEq, Repr

/-- The editor initialization performed by enhance_wordnet:
version = f-string old_ver followed by ".cn", label = f-string old_label
followed by " with tropes from ChainNet", lmf_version = '1.4'. -/
def mkWordnetEditor (lexicon_spec old_ver old_label : String) : EditorInit :=
  EditorInit.mk lexicon_spec (old_ver ++ ".cn")
    (old_label ++ " with tropes from ChainNet") "1.4"

/-- The default used by argparse when the --output flag is omitted: the
module-level constant DEFAULT_OUTPUT, whatever lexicon specifier was
selected via --wordnet. -/
def default_output (lexicon_spec : String) : String := DEFAULT_OUTPUT

/-- Modelled from the spec words for comparison: the default output name the
specification describes, the selected lexicon specifier followed by the
suffix ".cn.xml". -/
def spec_default_output (lexicon_spec : String) : String :=
  lexicon_spec ++ ".cn.xml"

/-- The four tally variables of the relation loop in enhance_wordnet. -/
structure Counters where
  added_count : Nat
  reverse_count : Nat
  skipped_count : Nat
  skipped_reverse : Nat
deriving DecidableEq, Repr

/-- All four tallies start at zero. -/
def Counters.init : Counters := Counters.mk 0 0 0 0

/-- One editor.add_sense_relation call: source id, target id, relation
label. -/
structure Edge where
  src : String
  tgt : String
  label : String
deriving DecidableEq, Repr

/-- The observable state of the relation loop: the tallies, every edge
handed to editor.add_sense_relation in call order, and the subset of those
calls that succeeded (the edges accumulated in the editor). -/
structure LoopState where
  counters : Counters
  attempts : List Edge
  added : List Edge
deriving DecidableEq, Repr

/-- The loop state before the first tuple. -/
def LoopState.init : LoopState := LoopState.mk Counters.init [] []

/-- The body of the for loop over relations in enhance_wordnet, for one
tuple. skey is the resolution map (dict.get with default None); addOk
decides whether an editor.add_sense_relation call succeeds or raises, given
the edges added so far. Faithful to the source: a resolution miss
increments skipped_count and skips both edges; a forward failure also
increments skipped_count; the reverse edge is attempted whenever both
endpoints resolved, with label reverses[rel_type]; a KeyError from that
lookup would be raised inside the try block and counted in
skipped_reverse without an editor call. -/
def processRelation (skey : String → Option String)
    (addOk : List Edge → Edge → Bool) (s : LoopState) (r : Rel) : LoopState :=
  match skey r.source_key, skey r.target_key with
  | some source_id, some target_id =>
    let fwd := Edge.mk source_id target_id r.rel_type
    let s1 :=
      if addOk s.added fwd then
        LoopState.mk
          (Counters.mk (s.counters.added_count + 1) s.counters.reverse_count
            s.counters.skipped_count s.counters.skipped_reverse)
          (s.attempts ++ [fwd]) (s.added ++ [fwd])
      else
        LoopState.mk
          (Counters.mk s.counters.added_count s.counters.reverse_count
            (s.counters.skipped_count + 1) s.counters.skipped_reverse)
          (s.attempts ++ [fwd]) s.added
    match reverses r.rel_type with
    | some rev_label =>
      let rev := Edge.mk target_id source_id rev_label
      if addOk s1.added rev then
        LoopState.mk
          (Counters.mk s1.counters.added_count (s1.counters.reverse_count + 1)
            s1.counters.skipped_count s1.counters.skipped_reverse)
          (s1.attempts ++ [rev]) (s1.added ++ [rev])
      else
        LoopState.mk
          (Counters.mk s1.counters.added_count s1.counters.reverse_count
            s1.counters.skipped_count (s1.counters.skipped_reverse + 1))
          (s1.attempts ++ [rev]) s1.added
    | none =>
      LoopState.mk
        (Counters.mk s1.counters.added_count s1.counters.reverse_count
          s1.counters.skipped_count (s1.counters.skipped_reverse + 1))
        s1.attempts s1.added
  | _, _ =>
    LoopState.mk
      (Counters.mk s.counters.added_count s.counters.reverse_count
        (s.counters.skipped_count + 1) s.counters.skipped_reverse)
      s.attempts s.added

/-- The whole for loop over relations in enhance_wordnet. -/
def enhanceLoop (skey : String → Option String)
    (addOk : List Edge → Edge → Bool) (relations : List Rel) : LoopState :=
  relations.foldl (processRelation skey addOk) LoopState.init

/-- A concrete two-entry resolution map used to evaluate the loop. -/
def wskey : String → Option String := fun k =>
  if k = "sk1" then some "id1" else if k = "sk2" then some "id2" else none

/-- An editor oracle on which every add_sense_relation call raises. -/
def addNone : List Edge → Edge → Bool := fun _ _ => false

/-- An editor oracle on which exactly the has_metaphor calls succeed. -/
def addRevOnly : List Edge → Edge → Bool := fun _ e => e.label == "has_metaphor"

/-- A concrete metaphor tuple whose two endpoints resolve under wskey. -/
def wrel : Rel := Rel.mk "metaphor" "w" "sk1" "sk2"

/-- A concrete tuple whose source key does not resolve under wskey. -/
def wmiss : Rel := Rel.mk "metaphor" "w" "nope" "sk2"

/-- C1: the Relation Loader does not read the per-category relation files
from the dataset directory passed to it. At the argument
"/tmp/other_chainnet" it still opens the two category files under the fixed
DEFAULT_CHAINNET location, because the source rebinds the path parameter
inside the loop. -/
theorem load_chainnet_reads_fixed_location :
    load_chainnet_tropes_files "/tmp/other_chainnet" =
      ["data/chainnet_simple/chainnet_metaphor.json",
       "data/chainnet_simple/chainnet_metonymy.json"] := by
  decide

/-- C2 counterexample: with lexicon specifier "oewn:2024" selected and the
output path omitted, the derived default output filename is not
"oewn:2024.cn.xml" (it is the fixed "omw-en:1.4_cn.xml"). -/
theorem default_output_cex :
    default_output "oewn:2024" ≠ spec_default_output "oewn:2024" := by
  decide

/-- C2 (amended): when the output path is omitted, the derived default
output filename is the fixed string "omw-en:1.4_cn.xml" — the default
wordnet specifier with suffix "_cn.xml" — for every selected lexicon
specifier, not the selected specifier with suffix ".cn.xml". -/
theorem default_output_fixed (lexicon_spec : String) :
    default_output lexicon_spec = "omw-en:1.4_cn.xml" := by
  rfl

/-- C3: identifier-resolution setup does not abort when the lexicon
specifier is one the resolver does not know how to map: get_map at
"oewn:2024" returns the empty map as a normal Except.ok result instead of
exiting; the would-be diagnostic in the source is a bare string expression
that is never emitted. -/
theorem get_map_unknown_lexicon_continues :
    get_map "oewn:2024" [Sense.mk "dog%1:05:00::" "omw-en-dog-02084071-n"] =
      Except.ok [] := by
  rfl

/-- C8: for the two category files loaded in order (metaphor, then
metonymy), extract_relations yields exactly one tuple per input record, in
input order, with the category of metaphor records kept as "metaphor" and
the category of metonymy records normalized to "metonym". -/
theorem extract_relations_one_tuple_per_record (ms ns : List Entry) :
    extract_relations [("metaphor", ms), ("metonymy", ns)] =
      ms.map (fun e => Rel.mk "metaphor" e.wordform e.from_sense e.to_sense)
      ++ ns.map (fun e => Rel.mk "metonym" e.wordform e.from_sense e.to_sense) := by
  simp [extract_relations]

/-- C9: the lexicon editor is initialized with version equal to the loaded
lexicon's version string with the fixed suffix ".cn" appended, and label
equal to the existing label with the fixed suffix
" with tropes from ChainNet" appended. -/
theorem editor_derived_version_label (lexicon_spec old_ver old_label : String) :
    (mkWordnetEditor lexicon_spec old_ver old_label).version = old_ver ++ ".cn"
    ∧ (mkWordnetEditor lexicon_spec old_ver old_label).label =
        old_label ++ " with tropes from ChainNet" := by
  exact ⟨rfl, rfl⟩

/-- C10: every tuple produced by extract_relations has category "metaphor"
or "metonym", so the reverses lookup performed for the reverse edge is
always defined (never a missing key). -/
theorem extracted_category_has_reverse (chainnet_data : List (String × List Entry))
    (r : Rel) (hr : r ∈ extract_relations chainnet_data) :
    (reverses r.rel_type).isSome := by
  induction chainnet_data with
  | nil => simp [extract_relations] at hr
  | cons tc rest ih =>
    simp only [extract_relations, List.foldr_cons, List.mem_append] at hr
    rcases hr with hr | hr
    · obtain ⟨e, _, rfl⟩ := List.mem_map.mp hr
      by_cases h : tc.1 = "metonymy" <;> simp [h, reverses]
    · exact ih hr

/-- Evaluation of the reverses lookup at the metaphor category. -/
theorem reverses_metaphor : reverses "metaphor" = some "has_metaphor" := rfl

/-- Evaluation of the reverses lookup at the metonym category. -/
theorem reverses_metonym : reverses "metonym" = some "has_metonym" := rfl

/-- C5: for every tuple whose two endpoints both resolve, a reverse-edge
attempt is made with the fixed inverse label of the tuple's category
(metaphor to has_metaphor, metonym to has_metonym), with no assumption on
the outcome of the forward attempt: the conclusion holds for every editor
oracle addOk, including one on which the forward add raises. -/
theorem reverse_attempt_made_when_resolved (skey : String → Option String)
    (addOk : List Edge → Edge → Bool) (s : LoopState) (r : Rel) (sid tid : String)
    (hs : skey r.source_key = some sid) (ht : skey r.target_key = some tid) :
    (r.rel_type = "metaphor" →
      Edge.mk tid sid "has_metaphor" ∈ (processRelation skey addOk s r).attempts)
    ∧ (r.rel_type = "metonym" →
      Edge.mk tid sid "has_metonym" ∈ (processRelation skey addOk s r).attempts) := by
  constructor <;> intro hcat <;>
    simp only [processRelation, hs, ht, hcat, reverses_metaphor, reverses_metonym] <;>
    split <;> split <;> simp

/-- C5 witness: the tuple wrel resolves under wskey, and on the oracle
addNone (every add raises, the forward one included) the reverse attempt
with label has_metaphor is still made. -/
theorem reverse_attempt_made_when_resolved_witness :
    wskey wrel.source_key = some "id1" ∧ wskey wrel.target_key = some "id2"
    ∧ ((wrel.rel_type = "metaphor" →
        Edge.mk "id2" "id1" "has_metaphor" ∈
          (processRelation wskey addNone LoopState.init wrel).attempts)
      ∧ (wrel.rel_type = "metonym" →
        Edge.mk "id2" "id1" "has_metonym" ∈
          (processRelation wskey addNone LoopState.init wrel).attempts)) :=
  ⟨by decide, by decide,
   reverse_attempt_made_when_resolved wskey addNone LoopState.init wrel "id1" "id2"
     (by decide) (by decide)⟩

/-- C6: for a tuple for which the resolution of the source key or of the
target key misses, the loop state changes only by incrementing
skipped_count by exactly one: no forward and no reverse edge attempt is
recorded, and the loop goes on to the next tuple (processRelation is total,
so the enclosing foldl continues). -/
theorem resolution_miss_skips_tuple (skey : String → Option String)
    (addOk : List Edge → Edge → Bool) (s : LoopState) (r : Rel)
    (h : skey r.source_key = none ∨ skey r.target_key = none) :
    processRelation skey addOk s r =
      LoopState.mk
        (Counters.mk s.counters.added_count s.counters.reverse_count
          (s.counters.skipped_count + 1) s.counters.skipped_reverse)
        s.attempts s.added := by
  unfold processRelation
  rcases h with h | h
  · rw [h]
  · rcases hs : skey r.source_key with _ | sid
    · rfl
    · rw [h]

/-- C6 witness: the tuple wmiss, whose source key does not resolve, leaves
attempts and added untouched and bumps skipped_count from 0 to 1. -/
theorem resolution_miss_skips_tuple_witness :
    (wskey wmiss.source_key = none ∨ wskey wmiss.target_key = none)
    ∧ processRelation wskey addNone LoopState.init wmiss =
        LoopState.mk
          (Counters.mk LoopState.init.counters.added_count
            LoopState.init.counters.reverse_count
            (LoopState.init.counters.skipped_count + 1)
            LoopState.init.counters.skipped_reverse)
          LoopState.init.attempts LoopState.init.added :=
  ⟨Or.inl (by decide),
   resolution_miss_skips_tuple wskey addNone LoopState.init wmiss (Or.inl (by decide))⟩

/-- C4 counterexample: a run over one tuple whose endpoints both resolve,
on an oracle where the forward add raises and the reverse add succeeds.
No resolution miss occurs, yet the final counters are
(added 0, reverse 1, skipped 1, skipped_reverse 0): the forward failure
was tallied in skipped_count, the very counter that records resolution
misses, so the forward-skip tally is not distinct from the
resolution-miss tally. -/
theorem forward_failure_counted_in_miss_counter_cex :
    (enhanceLoop wskey addRevOnly [wrel]).counters = Counters.mk 0 1 1 0 := by
  decide

/-- C4 (amended): a forward-edge write failure increments skipped_count —
the same counter that counts resolution misses, there being no dedicated
forward-skip counter — and leaves added_count unchanged; only the reverse
direction has its own distinct counter, skipped_reverse. -/
theorem forward_failure_increments_shared_counter (skey : String → Option String)
    (addOk : List Edge → Edge → Bool) (s : LoopState) (r : Rel) (sid tid : String)
    (hs : skey r.source_key = some sid) (ht : skey r.target_key = some tid)
    (hfail : addOk s.added (Edge.mk sid tid r.rel_type) = false) :
    (processRelation skey addOk s r).counters.skipped_count
      = s.counters.skipped_count + 1
    ∧ (processRelation skey addOk s r).counters.added_count
      = s.counters.added_count := by
  simp only [processRelation, hs, ht]
  rcases hrev : reverses r.rel_type with _ | rlab <;>
    simp only [hrev, hfail, Bool.false_eq_true, if_false]
  · simp
  · split <;> simp

/-- C4 witness: on the oracle addNone the forward add for wrel fails and
skipped_count goes from 0 to 1 while added_count stays 0. -/
theorem forward_failure_increments_shared_counter_witness :
    wskey wrel.source_key = some "id1" ∧ wskey wrel.target_key = some "id2"
    ∧ addNone LoopState.init.added (Edge.mk "id1" "id2" wrel.rel_type) = false
    ∧ ((processRelation wskey addNone LoopState.init wrel).counters.skipped_count
        = LoopState.init.counters.skipped_count + 1
      ∧ (processRelation wskey addNone LoopState.init wrel).counters.added_count
        = LoopState.init.counters.added_count) :=
  ⟨by decide, by decide, by decide,
   forward_failure_increments_shared_counter wskey addNone LoopState.init wrel
     "id1" "id2" (by decide) (by decide) (by decide)⟩

/-- One loop step never decreases either skip counter. -/
theorem processRelation_skip_mono (skey : String → Option String)
    (addOk : List Edge → Edge → Bool) (s : LoopState) (r : Rel) :
    s.counters.skipped_count ≤ (processRelation skey addOk s r).counters.skipped_count
    ∧ s.counters.skipped_reverse ≤
        (processRelation skey addOk s r).counters.skipped_reverse := by
  unfold processRelation
  rcases hs : skey r.source_key with _ | sid <;>
    rcases ht : skey r.target_key with _ | tid <;>
      simp only [hs, ht] <;>
        try exact ⟨Nat.le_succ _, Nat.le_refl _⟩
  rcases hrev : reverses r.rel_type with _ | rlab <;> simp only [hrev] <;>
    split <;> try split
  all_goals constructor <;> simp

/-- One loop step changes the four tallies and the attempt log together:
tallies plus prior attempt count equal prior tallies, plus one when the
tuple missed resolution, plus the new attempt count. -/
theorem processRelation_step_sum (skey : String → Option String)
    (addOk : List Edge → Edge → Bool) (s : LoopState) (r : Rel)
    (h : (reverses r.rel_type).isSome = true) :
    (processRelation skey addOk s r).counters.skipped_count
      + (processRelation skey addOk s r).counters.skipped_reverse
      + (processRelation skey addOk s r).counters.added_count
      + (processRelation skey addOk s r).counters.reverse_count
      + s.attempts.length
    = s.counters.skipped_count + s.counters.skipped_reverse
      + s.counters.added_count + s.counters.reverse_count
      + (if (skey r.source_key).isNone || (skey r.target_key).isNone then 1 else 0)
      + (processRelation skey addOk s r).attempts.length := by
  unfold processRelation
  rcases hs : skey r.source_key with _ | sid <;>
    rcases ht : skey r.target_key with _ | tid <;>
      simp only [hs, ht, Option.isNone_none, Option.isNone_some, Bool.true_or,
        Bool.or_true, Bool.or_false, if_true, if_false] <;>
        try omega
  rcases hrev : reverses r.rel_type with _ | rlab
  · rw [hrev] at h
    simp at h
  · simp only [hrev]
    split <;> split <;> simp [List.length_append] <;> omega

/-- The loop-sum invariant, generalized over the starting state for the
induction along the relation list. -/
theorem enhanceFold_sum (skey : String → Option String)
    (addOk : List Edge → Edge → Bool) :
    ∀ (rs : List Rel) (s : LoopState),
      rs.all (fun q => (reverses q.rel_type).isSome) = true →
      (rs.foldl (processRelation skey addOk) s).counters.skipped_count
        + (rs.foldl (processRelation skey addOk) s).counters.skipped_reverse
        + (rs.foldl (processRelation skey addOk) s).counters.added_count
        + (rs.foldl (processRelation skey addOk) s).counters.reverse_count
        + s.attempts.length
      = s.counters.skipped_count + s.counters.skipped_reverse
        + s.counters.added_count + s.counters.reverse_count
        + (rs.filter
            (fun q => (skey q.source_key).isNone || (skey q.target_key).isNone)).length
        + (rs.foldl (processRelation skey addOk) s).attempts.length := by
  intro rs
  induction rs with
  | nil => intro s h; simp
  | cons r rest ih =>
    intro s h
    simp only [List.all_cons, Bool.and_eq_true] at h
    have hstep := processRelation_step_sum skey addOk s r h.1
    have hrest := ih (processRelation skey addOk s r) h.2
    simp only [List.foldl_cons, List.filter_cons]
    by_cases hm : ((skey r.source_key).isNone || (skey r.target_key).isNone) = true
    · simp [hm] at hstep ⊢
      omega
    · simp [hm] at hstep ⊢
      omega

/-- C7 (amended): each skip counter is monotonically non-decreasing across
a loop step, and the final tallies satisfy: skip counters plus success
counters equal the number of resolution-missed tuples plus the number of
edge attempts — equivalently, the skip-counter sum equals missed tuples
plus failed attempts, so a tuple whose forward and reverse attempts both
fail contributes twice, not once. The all-categories-have-an-inverse
hypothesis holds for every extractor output. -/
theorem skip_counters_mono_and_sum (skey : String → Option String)
    (addOk : List Edge → Edge → Bool) (s : LoopState) (r : Rel)
    (relations : List Rel)
    (hrev : relations.all (fun q => (reverses q.rel_type).isSome) = true) :
    (s.counters.skipped_count ≤ (processRelation skey addOk s r).counters.skipped_count
      ∧ s.counters.skipped_reverse ≤
          (processRelation skey addOk s r).counters.skipped_reverse)
    ∧ (enhanceLoop skey addOk relations).counters.skipped_count
        + (enhanceLoop skey addOk relations).counters.skipped_reverse
        + (enhanceLoop skey addOk relations).counters.added_count
        + (enhanceLoop skey addOk relations).counters.reverse_count
      = (relations.filter
          (fun q => (skey q.source_key).isNone || (skey q.target_key).isNone)).length
        + (enhanceLoop skey addOk relations).attempts.length := by
  refine ⟨processRelation_skip_mono skey addOk s r, ?_⟩
  have hfold := enhanceFold_sum skey addOk relations LoopState.init hrev
  simpa [enhanceLoop, LoopState.init, Counters.init] using hfold

/-- C7 counterexample: a run over a single tuple (so at most one tuple can
be unprocessed) whose endpoints resolve and whose forward and reverse adds
both raise: the sum of the skip counters ends at 2, not 1 — the one tuple
contributed twice. -/
theorem skip_sum_cex :
    (enhanceLoop wskey addNone [wrel]).counters.skipped_count
      + (enhanceLoop wskey addNone [wrel]).counters.skipped_reverse = 2
    ∧ [wrel].length = 1 := by
  decide

/-- C7 witness: the amended invariant evaluated on the one-tuple run on the
all-raising oracle. -/
theorem skip_counters_mono_and_sum_witness :
    [wrel].all (fun q => (reverses q.rel_type).isSome) = true
    ∧ ((LoopState.init.counters.skipped_count ≤
          (processRelation wskey addNone LoopState.init wrel).counters.skipped_count
        ∧ LoopState.init.counters.skipped_reverse ≤
          (processRelation wskey addNone LoopState.init wrel).counters.skipped_reverse)
      ∧ (enhanceLoop wskey addNone [wrel]).counters.skipped_count
          + (enhanceLoop wskey addNone [wrel]).counters.skipped_reverse
          + (enhanceLoop wskey addNone [wrel]).counters.added_count
          + (enhanceLoop wskey addNone [wrel]).counters.reverse_count
        = ([wrel].filter
            (fun q => (wskey q.source_key).isNone || (wskey q.target_key).isNone)).length
          + (enhanceLoop wskey addNone [wrel]).attempts.length) :=
  ⟨by decide,
   skip_counters_mono_and_sum wskey addNone LoopState.init wrel [wrel] (by decide)⟩

/-- C10 witness: a concrete extracted tuple, with a defined reverse. -/
theorem extracted_category_has_reverse_witness :
    Rel.mk "metonym" "w" "a" "b" ∈
      extract_relations [("metonymy", [Entry.mk "w" "a" "b"])]
    ∧ (reverses (Rel.mk "metonym" "w" "a" "b").rel_type).isSome :=
  ⟨by decide,
   extracted_category_has_reverse [("metonymy", [Entry.mk "w" "a" "b"])]
     (Rel.mk "metonym" "w" "a" "b") (by decide)⟩

end Enhance
